import Mathlib

/-!
Verification of the alpha-dog-engine content pipeline core: the job store
records, the pipeline orchestrator (`src/services/pipeline/orchestrator.ts`),
the image stage (`src/services/pipeline/images.ts`), the in-process FIFO job
queue (`src/lib/job-queue.ts`) and the per-job event broadcaster
(`src/lib/event-emitter.ts`), shallowly embedded as pure Lean functions and a
small-step queue transition system.
-/

namespace AlphaDog

/-- Job statuses: the `JobStatus` union of `event-emitter.ts` plus the store's
default `idle` (prisma: `"status" TEXT NOT NULL DEFAULT 'idle'`). -/
inductive JobStatus where
  | idle
  | researching
  | generating_images
  | writing
  | generating_meta
  | generating_thumbnail
  | completed
  | failed
deriving DecidableEq, Repr

/-- A thrown JavaScript value: either an `Error` object carrying a message, or
any non-`Error` value (whose payload the orchestrator never inspects). -/
inductive JSError where
  | errObj (msg : String)
  | nonError
deriving DecidableEq, Repr

/-- The message the orchestrator's catch block extracts:
`error instanceof Error ? error.message : "Unknown error"`. -/
def errMsg : JSError → String
  | JSError.errObj m => m
  | JSError.nonError => "Unknown error"

/-- The rejection `prisma.contentJob.findUniqueOrThrow` produces when no row
matches (Prisma's `NotFoundError`, an `Error` instance). -/
def prismaNotFound : JSError := JSError.errObj "No ContentJob found"

/-- One generated article image (`ArticleImage` in `images.ts`). -/
structure ArticleImage where
  placement : String
  url : String
  alt : String
  caption : Option String
deriving DecidableEq, Repr

/-- Output of the meta stage (`generateMeta`). -/
structure MetaFields where
  metaTitle : String
  metaDescription : String
  urlSlug : String
deriving DecidableEq, Repr

/-- The `ContentJob` row fields the pipeline reads or writes.  Stage outputs
that the code stores JSON-serialized are stored here as their values (the
serialization is injective and never re-parsed by the modelled code). -/
structure JobRecord where
  status : JobStatus
  errorMessage : Option String
  researchBrief : Option String
  images : Option (List ArticleImage)
  articleContent : Option String
  metaTitle : Option String
  metaDescription : Option String
  urlSlug : Option String
  thumbnailUrl : Option String
deriving DecidableEq, Repr

/-- One `prisma.contentJob.update({ data })` payload: each field is `some v`
exactly when the update sets it (for `errorMessage`, `some none` models
setting the column to SQL NULL). -/
structure UpdateData where
  status : Option JobStatus := none
  errorMessage : Option (Option String) := none
  researchBrief : Option String := none
  images : Option (List ArticleImage) := none
  articleContent : Option String := none
  metaTitle : Option String := none
  metaDescription : Option String := none
  urlSlug : Option String := none
  thumbnailUrl : Option String := none
deriving DecidableEq, Repr

/-- Overwrite a nullable column with the update's value when the update
mentions it, else keep the current value. -/
def updField {α : Type} (u : Option α) (cur : Option α) : Option α :=
  match u with
  | some v => some v
  | none => cur

/-- Apply an update payload to a row: mentioned fields are overwritten,
unmentioned fields keep their value. -/
def applyUpdate (r : JobRecord) (d : UpdateData) : JobRecord where
  status := d.status.getD r.status
  errorMessage := d.errorMessage.getD r.errorMessage
  researchBrief := updField d.researchBrief r.researchBrief
  images := updField d.images r.images
  articleContent := updField d.articleContent r.articleContent
  metaTitle := updField d.metaTitle r.metaTitle
  metaDescription := updField d.metaDescription r.metaDescription
  urlSlug := updField d.urlSlug r.urlSlug
  thumbnailUrl := updField d.thumbnailUrl r.thumbnailUrl

/-- The Job Store: `ContentJob` rows keyed by integer id. -/
abbrev Store : Type := List (Nat × JobRecord)

/-- `prisma.contentJob.findUnique({ where: { id } })`. -/
def findJob : Store → Nat → Option JobRecord
  | [], _ => none
  | (k, r) :: t, i => if k = i then some r else findJob t i

/-- `prisma.contentJob.update({ where: { id }, data })` on the matching row. -/
def updateJob : Store → Nat → UpdateData → Store
  | [], _, _ => []
  | (k, r) :: t, i, d => if k = i then (k, applyUpdate r d) :: t else (k, r) :: updateJob t i d

/-- The five pipeline stage functions, as called by the orchestrator. -/
inductive Stage where
  | research
  | images
  | writing
  | meta
  | thumbnail
deriving DecidableEq, Repr

/-- One observable side effect of a pipeline run: a Job Store update, a
broadcaster publish (`jobBroadcaster.emit`), or the invocation of a stage
function. -/
inductive PEvent where
  | update (jobId : Nat) (d : UpdateData)
  | emit (jobId : Nat) (status : JobStatus) (message : String)
  | callStage (s : Stage)
deriving DecidableEq, Repr

/-- Running state of one orchestrator invocation: the store plus the ordered
trace of side effects performed so far. -/
structure PRun where
  store : Store
  trace : List PEvent
deriving DecidableEq, Repr

/-- Perform a store update (mutates the store, appends to the trace). -/
def PRun.upd (r : PRun) (jobId : Nat) (d : UpdateData) : PRun :=
  PRun.mk (updateJob r.store jobId d) (r.trace ++ [PEvent.update jobId d])

/-- Publish a broadcaster event. -/
def PRun.pub (r : PRun) (jobId : Nat) (st : JobStatus) (msg : String) : PRun :=
  PRun.mk r.store (r.trace ++ [PEvent.emit jobId st msg])

/-- Record the invocation of a stage function. -/
def PRun.call (r : PRun) (s : Stage) : PRun :=
  PRun.mk r.store (r.trace ++ [PEvent.callStage s])

/-- The orchestrator's catch block: persist `status = failed` together with
`errorMessage` in one update, then publish a `failed` event with the same
message. -/
def PRun.haltFail (r : PRun) (jobId : Nat) (e : JSError) : PRun :=
  (r.upd jobId { status := some JobStatus.failed,
                 errorMessage := some (some (errMsg e)) }).pub jobId JobStatus.failed (errMsg e)

/-- Results of the five external stage calls for one run: `Except.error e`
models the call throwing `e`.  (`research` yields the serialized brief
`JSON.stringify(researchBrief)`.) -/
structure StageOracle where
  research : Except JSError String
  images : Except JSError (List ArticleImage)
  write : Except JSError String
  meta : Except JSError MetaFields
  thumbnail : Except JSError String

/-- Shallow embedding of `runContentPipeline` (orchestrator.ts).  The returned
`Except` is the promise outcome of the call itself: it rejects only when the
initial `findUniqueOrThrow` lookup fails, before the `try` block; stage
exceptions are caught inside and the promise resolves normally. -/
def runContentPipeline (store : Store) (jobId : Nat) (o : StageOracle) :
    Except JSError Unit × PRun :=
  match findJob store jobId with
  | none => (Except.error prismaNotFound, PRun.mk store [])
  | some _ =>
    let r := PRun.mk store []
    let r := (((r.upd jobId { status := some JobStatus.researching }).pub
        jobId JobStatus.researching "Starting research...").call Stage.research)
    match o.research with
    | Except.error e => (Except.ok (), r.haltFail jobId e)
    | Except.ok brief =>
      let r := (r.upd jobId { researchBrief := some brief }).pub
          jobId JobStatus.researching "Research complete"
      let r := (((r.upd jobId { status := some JobStatus.generating_images }).pub
          jobId JobStatus.generating_images "Generating article images...").call Stage.images)
      match o.images with
      | Except.error e => (Except.ok (), r.haltFail jobId e)
      | Except.ok imgs =>
        let r := (r.upd jobId { images := some imgs }).pub
            jobId JobStatus.generating_images "Images generated"
        let r := (((r.upd jobId { status := some JobStatus.writing }).pub
            jobId JobStatus.writing "Writing article...").call Stage.writing)
        match o.write with
        | Except.error e => (Except.ok (), r.haltFail jobId e)
        | Except.ok article =>
          let r := (r.upd jobId { articleContent := some article }).pub
              jobId JobStatus.writing "Article written"
          let r := (((r.upd jobId { status := some JobStatus.generating_meta }).pub
              jobId JobStatus.generating_meta "Generating meta tags...").call Stage.meta)
          match o.meta with
          | Except.error e => (Except.ok (), r.haltFail jobId e)
          | Except.ok m =>
            let dMeta : UpdateData :=
              { metaTitle := some (m.metaTitle),
                metaDescription := some (m.metaDescription),
                urlSlug := some (m.urlSlug) }
            let r := (r.upd jobId dMeta).pub
                jobId JobStatus.generating_meta "Meta tags generated"
            let r := (((r.upd jobId { status := some JobStatus.generating_thumbnail }).pub
                jobId JobStatus.generating_thumbnail "Generating thumbnail...").call Stage.thumbnail)
            match o.thumbnail with
            | Except.error e => (Except.ok (), r.haltFail jobId e)
            | Except.ok url =>
              let r := (r.upd jobId { thumbnailUrl := some url }).pub
                  jobId JobStatus.generating_thumbnail "Thumbnail generated"
              let r := (r.upd jobId { status := some JobStatus.completed }).pub
                  jobId JobStatus.completed "Pipeline complete"
              (Except.ok (), r)

/-- The first stage exception a run encounters, if any (stages are attempted
in pipeline order, later results are irrelevant once one throws). -/
def firstError (o : StageOracle) : Option JSError :=
  match o.research with
  | Except.error e => some e
  | Except.ok _ =>
    match o.images with
    | Except.error e => some e
    | Except.ok _ =>
      match o.write with
      | Except.error e => some e
      | Except.ok _ =>
        match o.meta with
        | Except.error e => some e
        | Except.ok _ =>
          match o.thumbnail with
          | Except.error e => some e
          | Except.ok _ => none

/-- Statuses written to the Job Store, in order, by a trace. -/
def statusWrites : List PEvent → List JobStatus
  | [] => []
  | PEvent.update _ d :: t =>
    match d.status with
    | some s => s :: statusWrites t
    | none => statusWrites t
  | _ :: t => statusWrites t

/-- Statuses carried by broadcaster events, in publish order. -/
def publishedStatuses : List PEvent → List JobStatus
  | [] => []
  | PEvent.emit _ s _ :: t => s :: publishedStatuses t
  | _ :: t => publishedStatuses t

/-- Collapse consecutive duplicate statuses. -/
def dedupAdj : List JobStatus → List JobStatus
  | [] => []
  | [s] => [s]
  | s :: s' :: t => if s = s' then dedupAdj (s' :: t) else s :: dedupAdj (s' :: t)

/-- The status sequence the spec requires of a successful run. -/
def successStatuses : List JobStatus :=
  [JobStatus.researching, JobStatus.generating_images, JobStatus.writing,
   JobStatus.generating_meta, JobStatus.generating_thumbnail, JobStatus.completed]

/-- The update payloads of a trace, in order. -/
def updatesOf : List PEvent → List UpdateData
  | [] => []
  | PEvent.update _ d :: t => d :: updatesOf t
  | _ :: t => updatesOf t

/-- The record invariant: `errorMessage` is non-null iff `status == failed`. -/
def recordInv (r : JobRecord) : Bool :=
  r.errorMessage.isSome == decide (r.status = JobStatus.failed)

/-- Check that, starting from `r`, the invariant holds after each successive
update of the list. -/
def recordOkAlong (r : JobRecord) : List UpdateData → Bool
  | [] => true
  | d :: ds =>
    let r' := applyUpdate r d
    recordInv r' && recordOkAlong r' ds

/-- The reset the re-trigger route performs before enqueueing
(`data: { status: "idle", errorMessage: null }` in
`api/jobs/[jobId]/generate/route.ts`). -/
def retriggerReset : UpdateData :=
  { status := some JobStatus.idle, errorMessage := some none }

/-- Check, left to right, that every broadcaster publish in the trace carries
the status most recently written to the Job Store (`cur` = last written
status, `none` before any write). -/
def pubsRespectWrites (cur : Option JobStatus) : List PEvent → Bool
  | [] => true
  | PEvent.update _ d :: t =>
    match d.status with
    | some s => pubsRespectWrites (some s) t
    | none => pubsRespectWrites cur t
  | PEvent.emit _ st _ :: t => decide (cur = some st) && pubsRespectWrites cur t
  | PEvent.callStage _ :: t => pubsRespectWrites cur t

end AlphaDog

namespace AlphaDog

/-! ## Image stage (`src/services/pipeline/images.ts`) -/

/-- One image specification produced by the spec-generation step (Gemini
structured output; the schema requires all four fields, `caption` possibly
the empty string). -/
structure ImageSpec where
  placement : String
  imagePrompt : String
  altText : String
  caption : String
deriving DecidableEq, Repr

/-- Result of one `generateImage` call (fal.ai). -/
structure GeneratedImage where
  url : String
deriving DecidableEq, Repr

/-- JavaScript `spec.caption || null`: the empty string is falsy and becomes
null. -/
def strOrNull (s : String) : Option String :=
  if s = "" then none else some s

/-- The article image built from a spec and its generated result. -/
def mkArticleImage (spec : ImageSpec) (g : GeneratedImage) : ArticleImage :=
  ⟨spec.placement, g.url, spec.altText, strOrNull spec.caption⟩

/-- The per-spec loop of `generateArticleImages`: each `generateImage` throw
is caught, logged and skipped; successes are accumulated in spec order. -/
def imagesLoop (gen : ImageSpec → Except JSError GeneratedImage) :
    List ImageSpec → List ArticleImage
  | [] => []
  | spec :: rest =>
    match gen spec with
    | Except.ok g => mkArticleImage spec g :: imagesLoop gen rest
    | Except.error _ => imagesLoop gen rest

/-- Shallow embedding of `generateArticleImages`: `specResult` is the outcome
of the spec-generation step (`getStructuredOutput`), whose exception
propagates; `gen` gives each individual `generateImage` call's outcome. -/
def generateArticleImages (specResult : Except JSError (List ImageSpec))
    (gen : ImageSpec → Except JSError GeneratedImage) :
    Except JSError (List ArticleImage) :=
  match specResult with
  | Except.error e => Except.error e
  | Except.ok specs => Except.ok (imagesLoop gen specs)

/-! ## Event broadcaster (`src/lib/event-emitter.ts`) -/

/-- A published job event. -/
structure JobEvent where
  jobId : Nat
  status : JobStatus
  message : String
  timestamp : Nat
deriving DecidableEq, Repr

/-- The broadcaster's subscription state: the Node `EventEmitter` listener
lists of the channels `job:${jobId}`, flattened to (job id, callback handle)
pairs in registration order.  Distinct integer ids give distinct channel
names, so keying by the id is faithful. -/
structure Broadcaster where
  subs : List (Nat × Nat)
deriving DecidableEq, Repr

/-- `subscribe(jobId, callback)`: `emitter.on` appends the callback to the
channel's listener list. -/
def Broadcaster.subscribe (b : Broadcaster) (jobId : Nat) (cb : Nat) : Broadcaster :=
  ⟨b.subs ++ [(jobId, cb)]⟩

/-- `unsubscribe` (the closure returned by `subscribe`): `emitter.off` removes
the callback from that channel's listener list. -/
def Broadcaster.unsubscribe (b : Broadcaster) (jobId : Nat) (cb : Nat) : Broadcaster :=
  ⟨b.subs.filter (fun p => !(p.1 = jobId && p.2 = cb))⟩

/-- `emit(jobId, status, message)`: build the timestamped event and deliver it
synchronously to the listeners of channel `job:${jobId}`, in registration
order.  Returns the list of (callback handle, event) deliveries. -/
def Broadcaster.emitEvent (b : Broadcaster) (jobId : Nat) (status : JobStatus)
    (message : String) (now : Nat) : List (Nat × JobEvent) :=
  (b.subs.filter (fun p => p.1 = jobId)).map
    (fun p => (p.2, ⟨jobId, status, message, now⟩))

/-! ## Job queue (`src/lib/job-queue.ts`)

The queue is embedded as a transition system over the module state
(`queue`, `processing`) extended with the set of in-flight pipeline runs and
an event trace.  Steps are the entry points of the event loop: an
`enqueueJob` call, or the settlement of an in-flight `runContentPipeline`
promise (whose continuation — catch, then the tail call to `processNext` —
runs atomically, as Node runs microtasks to completion). -/

/-- Observable queue events: an enqueue call, the start of a pipeline run,
or the settlement of a run (`ok = false` models a rejected run promise,
absorbed by the drain loop's try/catch). -/
inductive QEv where
  | enq (j : Nat)
  | start (j : Nat)
  | settle (j : Nat) (ok : Bool)
deriving DecidableEq, Repr

/-- State of the queue module plus run bookkeeping. -/
structure QState where
  queue : List Nat
  processing : Bool
  inflight : List Nat
  trace : List QEv
deriving DecidableEq, Repr

/-- The state at process start: empty buffer, not processing. -/
def QState.init : QState := ⟨[], false, [], []⟩

/-- The synchronous head of `processNext`: if the buffer is empty, clear
`processing` and return; otherwise set `processing`, shift the head id and
start its pipeline run (which is then in flight until it settles). -/
def startNext (s : QState) : QState :=
  match s.queue with
  | [] => { s with processing := false }
  | j :: rest =>
    { s with processing := true, queue := rest,
             inflight := s.inflight ++ [j], trace := s.trace ++ [QEv.start j] }

/-- `enqueueJob(jobId)`: push to the buffer tail; if no drain is active,
start draining immediately. -/
def enqueueJob (s : QState) (j : Nat) : QState :=
  let s1 : QState := { s with queue := s.queue ++ [j], trace := s.trace ++ [QEv.enq j] }
  if s.processing then s1 else startNext s1

/-- Settlement of the oldest in-flight run: the drain loop's try/catch
absorbs the outcome either way and the tail call `processNext()` runs. -/
def settleRun (s : QState) (ok : Bool) : QState :=
  match s.inflight with
  | [] => s
  | j :: rest =>
    startNext { s with inflight := rest, trace := s.trace ++ [QEv.settle j ok] }

/-- States reachable from process start: any interleaving of `enqueueJob`
calls and settlements of in-flight runs. -/
inductive Reachable : QState → Prop
  | init : Reachable QState.init
  | enq (j : Nat) {s : QState} : Reachable s → Reachable (enqueueJob s j)
  | settle (ok : Bool) {s : QState} : Reachable s → s.inflight ≠ [] →
      Reachable (settleRun s ok)

/-- Ids of enqueue events, in order. -/
def enqIds : List QEv → List Nat
  | [] => []
  | QEv.enq j :: t => j :: enqIds t
  | _ :: t => enqIds t

/-- Ids of run-start events, in order. -/
def startIds : List QEv → List Nat
  | [] => []
  | QEv.start j :: t => j :: startIds t
  | _ :: t => startIds t

/-- Settled runs with their outcomes, in order. -/
def settleOuts : List QEv → List (Nat × Bool)
  | [] => []
  | QEv.settle j ok :: t => (j, ok) :: settleOuts t
  | _ :: t => settleOuts t

/-- The run events (starts and settlements) of a trace, enqueues removed. -/
def runEvs : List QEv → List QEv
  | [] => []
  | QEv.enq _ :: t => runEvs t
  | e :: t => e :: runEvs t

/-- The strictly serial run-event sequence: start/settle pairs, one per
completed run. -/
def pairEvs : List (Nat × Bool) → List QEv
  | [] => []
  | (j, ok) :: t => QEv.start j :: QEv.settle j ok :: pairEvs t

/-- Queue invariant: (1) when idle, buffer and in-flight set are empty;
(2) when processing, exactly one run is in flight; (3) run starts are the
enqueue sequence minus the still-buffered tail (FIFO, no reorder); (4) run
events are completed start/settle pairs followed by the start of the
in-flight run: runs are strictly serialized. -/
def QInv (s : QState) : Prop :=
  (s.processing = false → s.queue = [] ∧ s.inflight = []) ∧
  (s.processing = true → ∃ j, s.inflight = [j]) ∧
  enqIds s.trace = startIds s.trace ++ s.queue ∧
  runEvs s.trace = pairEvs (settleOuts s.trace) ++ s.inflight.map QEv.start

/-- Settle the in-flight run repeatedly, with the given outcomes. -/
def settleMany (s : QState) (outs : List Bool) : QState :=
  outs.foldl settleRun s

end AlphaDog

namespace AlphaDog

/-! ## Trace prefixes of runs that fail at a given stage

The side effects of the successful part of a run, up to and including the
invocation of the first failing stage: the trace the orchestrator has emitted
when the catch block takes over. -/

/-- Effects before the research stage call returns. -/
def prefixResearch (jobId : Nat) : List PEvent :=
  [PEvent.update jobId { status := some JobStatus.researching },
   PEvent.emit jobId JobStatus.researching "Starting research...",
   PEvent.callStage Stage.research]

/-- Effects before the image stage call returns. -/
def prefixImages (jobId : Nat) (brief : String) : List PEvent :=
  prefixResearch jobId ++
  [PEvent.update jobId { researchBrief := some brief },
   PEvent.emit jobId JobStatus.researching "Research complete",
   PEvent.update jobId { status := some JobStatus.generating_images },
   PEvent.emit jobId JobStatus.generating_images "Generating article images...",
   PEvent.callStage Stage.images]

/-- Effects before the writing stage call returns. -/
def prefixWriting (jobId : Nat) (brief : String) (imgs : List ArticleImage) : List PEvent :=
  prefixImages jobId brief ++
  [PEvent.update jobId { images := some imgs },
   PEvent.emit jobId JobStatus.generating_images "Images generated",
   PEvent.update jobId { status := some JobStatus.writing },
   PEvent.emit jobId JobStatus.writing "Writing article...",
   PEvent.callStage Stage.writing]

/-- Effects before the meta stage call returns. -/
def prefixMeta (jobId : Nat) (brief : String) (imgs : List ArticleImage)
    (article : String) : List PEvent :=
  prefixWriting jobId brief imgs ++
  [PEvent.update jobId { articleContent := some article },
   PEvent.emit jobId JobStatus.writing "Article written",
   PEvent.update jobId { status := some JobStatus.generating_meta },
   PEvent.emit jobId JobStatus.generating_meta "Generating meta tags...",
   PEvent.callStage Stage.meta]

/-- Effects before the thumbnail stage call returns. -/
def prefixThumbnail (jobId : Nat) (brief : String) (imgs : List ArticleImage)
    (article : String) (m : MetaFields) : List PEvent :=
  prefixMeta jobId brief imgs article ++
  [PEvent.update jobId { metaTitle := some (m.metaTitle),
                         metaDescription := some (m.metaDescription),
                         urlSlug := some (m.urlSlug) },
   PEvent.emit jobId JobStatus.generating_meta "Meta tags generated",
   PEvent.update jobId { status := some JobStatus.generating_thumbnail },
   PEvent.emit jobId JobStatus.generating_thumbnail "Generating thumbnail...",
   PEvent.callStage Stage.thumbnail]

/-! ## Concrete instances used by witnesses and counterexamples -/

/-- A freshly created job row (prisma defaults: status `idle`, null columns). -/
def demoJob : JobRecord :=
  ⟨JobStatus.idle, none, none, none, none, none, none, none, none⟩

/-- A one-row Job Store holding `demoJob` under id 1. -/
def demoStore : Store := [(1, demoJob)]

/-- An oracle on which all five stage calls succeed. -/
def demoOracleOk : StageOracle :=
  ⟨Except.ok "brief", Except.ok [], Except.ok "article",
   Except.ok ⟨"title", "description", "slug"⟩, Except.ok "thumb"⟩

/-- A job row left behind by a failed run: status `failed`, non-null
`errorMessage` (it satisfies the record invariant). -/
def demoFailedJob : JobRecord :=
  ⟨JobStatus.failed, some "boom", none, none, none, none, none, none, none⟩

/-- An oracle on which the writing stage throws `Error("boom")` and the other
stages would succeed. -/
def demoOracleWFail : StageOracle :=
  ⟨Except.ok "brief", Except.ok [], Except.error (JSError.errObj "boom"),
   Except.ok ⟨"title", "description", "slug"⟩, Except.ok "thumb"⟩

/-- Four image specs. -/
def demoSpecs : List ImageSpec :=
  [⟨"after introduction", "prompt1", "alt1", ""⟩,
   ⟨"in section 2", "prompt2", "alt2", "caption2"⟩,
   ⟨"in section 3", "prompt3", "alt3", ""⟩,
   ⟨"before conclusion", "prompt4", "alt4", "caption4"⟩]

/-- Image generation that throws on the second and fourth spec and succeeds on
the others. -/
def demoGen (s : ImageSpec) : Except JSError GeneratedImage :=
  if s.imagePrompt = "prompt2" || s.imagePrompt = "prompt4" then
    Except.error (JSError.errObj "image generation failed")
  else Except.ok ⟨"url-" ++ s.imagePrompt⟩

/-- An oracle whose image-stage result is the image stage run on `demoSpecs`
with `demoGen`. -/
def demoOracle8 : StageOracle :=
  ⟨Except.ok "brief", generateArticleImages (Except.ok demoSpecs) demoGen,
   Except.ok "article", Except.ok ⟨"title", "description", "slug"⟩, Except.ok "thumb"⟩

/-- Queue state after: enqueue 1, enqueue 2, run 1 settles ok, run 2 settles
with a rejection. -/
def demoQdone : QState :=
  settleRun (settleRun (enqueueJob (enqueueJob QState.init 1) 2) true) false

/-- Queue state after three back-to-back enqueues while idle: job 1's run is
in flight, jobs 2 and 3 are buffered. -/
def demoQbusy : QState :=
  enqueueJob (enqueueJob (enqueueJob QState.init 1) 2) 3

/-- A broadcaster with a subscriber to job 5 and one to job 6. -/
def demoBroadcaster : Broadcaster := ⟨[(5, 10), (6, 11)]⟩

end AlphaDog

namespace AlphaDog

/-! ## Basic lemmas -/

theorem enqIds_append (a b : List QEv) : enqIds (a ++ b) = enqIds a ++ enqIds b := by
  induction a with
  | nil => rfl
  | cons e t ih => cases e <;> simp [enqIds, ih]

theorem startIds_append (a b : List QEv) : startIds (a ++ b) = startIds a ++ startIds b := by
  induction a with
  | nil => rfl
  | cons e t ih => cases e <;> simp [startIds, ih]

theorem settleOuts_append (a b : List QEv) :
    settleOuts (a ++ b) = settleOuts a ++ settleOuts b := by
  induction a with
  | nil => rfl
  | cons e t ih => cases e <;> simp [settleOuts, ih]

theorem runEvs_append (a b : List QEv) : runEvs (a ++ b) = runEvs a ++ runEvs b := by
  induction a with
  | nil => rfl
  | cons e t ih => cases e <;> simp [runEvs, ih]

theorem pairEvs_append (a b : List (Nat × Bool)) :
    pairEvs (a ++ b) = pairEvs a ++ pairEvs b := by
  induction a with
  | nil => rfl
  | cons p t ih => cases p; simp [pairEvs, ih]

theorem findJob_updateJob (st : Store) (i : Nat) (d : UpdateData) :
    findJob (updateJob st i d) i = (findJob st i).map (fun r => applyUpdate r d) := by
  induction st with
  | nil => rfl
  | cons p t ih =>
    obtain ⟨k, r⟩ := p
    by_cases hk : k = i <;> simp [findJob, updateJob, hk, ih]

/-! ## The queue invariant and its preservation -/

theorem qinv_init : QInv QState.init := by
  refine ⟨fun _ => ⟨rfl, rfl⟩, fun h => by simp [QState.init] at h, rfl, rfl⟩

theorem qinv_enqueue {s : QState} (hs : QInv s) (j : Nat) : QInv (enqueueJob s j) := by
  obtain ⟨h1, h2, h3, h4⟩ := hs
  obtain ⟨q, p, inf, tr⟩ := s
  simp only at h1 h2 h3 h4
  by_cases hp : p
  · subst hp
    refine ⟨fun h => by simp [enqueueJob] at h,
      fun _ => by simpa [enqueueJob] using h2 rfl, ?_, ?_⟩
    · simp [enqueueJob, enqIds_append, startIds_append, enqIds, startIds, h3]
    · simp [enqueueJob, runEvs_append, settleOuts_append, runEvs, settleOuts, h4]
  · simp only [Bool.not_eq_true] at hp
    subst hp
    obtain ⟨hq, hi⟩ := h1 rfl
    subst hq; subst hi
    refine ⟨fun h => by simp [enqueueJob, startNext] at h,
      fun _ => ⟨j, by simp [enqueueJob, startNext]⟩, ?_, ?_⟩
    · simp [enqueueJob, startNext, enqIds_append, startIds_append, enqIds, startIds]
      simpa using h3
    · simp [enqueueJob, startNext, runEvs_append, settleOuts_append, runEvs, settleOuts]
      simpa using h4

theorem qinv_settle {s : QState} (hs : QInv s) (ok : Bool) (hne : s.inflight ≠ []) :
    QInv (settleRun s ok) := by
  obtain ⟨h1, h2, h3, h4⟩ := hs
  obtain ⟨q, p, inf, tr⟩ := s
  simp only at h1 h2 h3 h4 hne
  by_cases hp : p
  · subst hp
    obtain ⟨j, hj⟩ := h2 rfl
    subst hj
    cases q with
    | nil =>
      refine ⟨fun _ => ⟨by simp [settleRun, startNext], by simp [settleRun, startNext]⟩,
        fun h => by simp [settleRun, startNext] at h, ?_, ?_⟩
      · simp [settleRun, startNext, enqIds_append, startIds_append, enqIds, startIds]
        simpa using h3
      · simp [settleRun, startNext, runEvs_append, settleOuts_append, pairEvs_append,
          runEvs, settleOuts, pairEvs, h4]
    | cons k rest =>
      refine ⟨fun h => by simp [settleRun, startNext] at h,
        fun _ => ⟨k, by simp [settleRun, startNext]⟩, ?_, ?_⟩
      · simp [settleRun, startNext, enqIds_append, startIds_append, enqIds, startIds]
        simpa using h3
      · simp [settleRun, startNext, runEvs_append, settleOuts_append, pairEvs_append,
          runEvs, settleOuts, pairEvs, h4]
  · simp only [Bool.not_eq_true] at hp
    subst hp
    obtain ⟨_, hi⟩ := h1 rfl
    exact absurd hi hne

theorem reach_qinv {s : QState} (h : Reachable s) : QInv s := by
  induction h with
  | init => exact qinv_init
  | enq j _ ih => exact qinv_enqueue ih j
  | settle ok _ hne ih => exact qinv_settle ih ok hne

end AlphaDog

namespace AlphaDog

/-! ## Claims -/

/-- C1 (counterexample): on an all-success run, the raw sequence of statuses
published to a subscriber is not the six-element stage sequence: every stage
publishes a starting event and a completion event with the same status, so
the published sequence contains adjacent repeats (11 events in all). -/
theorem published_statuses_have_repeats :
    publishedStatuses (runContentPipeline demoStore 1 demoOracleOk).2.trace ≠
      successStatuses := by decide

/-- C1 (amended): for every job whose five stages all succeed, the sequence of
statuses written to the Job Store by one orchestrator run is exactly
`[researching, generating_images, writing, generating_meta,
generating_thumbnail, completed]` with no skips, repeats or reordering, and
the statuses published to a subscriber, after collapsing the consecutive
duplicates coming from each stage's start/complete event pair, form that same
sequence. -/
theorem success_status_sequence {store : Store} {jobId : Nat} {job : JobRecord}
    (h : findJob store jobId = some job) {o : StageOracle}
    {brief article url : String} {imgs : List ArticleImage} {m : MetaFields}
    (hr : o.research = Except.ok brief) (hi : o.images = Except.ok imgs)
    (hw : o.write = Except.ok article) (hm : o.meta = Except.ok m)
    (ht : o.thumbnail = Except.ok url) :
    statusWrites (runContentPipeline store jobId o).2.trace = successStatuses ∧
    dedupAdj (publishedStatuses (runContentPipeline store jobId o).2.trace) =
      successStatuses := by
  obtain ⟨ores, oimg, ow, om, ot⟩ := o
  simp only at hr hi hw hm ht
  subst hr; subst hi; subst hw; subst hm; subst ht
  constructor
  · simp [runContentPipeline, h, PRun.upd, PRun.pub, PRun.call,
      statusWrites, successStatuses]
  · simp [runContentPipeline, h, PRun.upd, PRun.pub, PRun.call,
      publishedStatuses, dedupAdj, successStatuses]

/-- C1 (witness): the amended claim instantiated on a concrete store, job and
all-success oracle. -/
theorem success_status_sequence_witness :
    statusWrites (runContentPipeline demoStore 1 demoOracleOk).2.trace =
      successStatuses ∧
    dedupAdj (publishedStatuses (runContentPipeline demoStore 1 demoOracleOk).2.trace) =
      successStatuses :=
  @success_status_sequence demoStore 1 demoJob (by decide) demoOracleOk
    "brief" "article" "thumb" [] ⟨"title", "description", "slug"⟩
    rfl rfl rfl rfl rfl

/-- C2: in every reachable queue state, (1) at most one pipeline run is in
flight; (2) the ids whose runs started are exactly the enqueued ids in
enqueue order, minus the still-buffered tail — strict FIFO, no reordering;
(3) the run events of the trace are completed start/settle pairs followed by
the start of the current in-flight run, so run N+1 never starts before run
N's success-or-failure settlement. -/
theorem queue_serial_fifo {s : QState} (h : Reachable s) :
    s.inflight.length ≤ 1 ∧
    enqIds s.trace = startIds s.trace ++ s.queue ∧
    runEvs s.trace = pairEvs (settleOuts s.trace) ++ s.inflight.map QEv.start := by
  obtain ⟨h1, h2, h3, h4⟩ := reach_qinv h
  refine ⟨?_, h3, h4⟩
  cases hp : s.processing with
  | true => obtain ⟨j, hj⟩ := h2 hp; simp [hj]
  | false => obtain ⟨_, hi⟩ := h1 hp; simp [hi]

/-- C2 (witness): the serialization and FIFO properties evaluated on the
concrete reachable state reached by enqueue 1, enqueue 2, settle, settle. -/
theorem queue_serial_fifo_witness :
    demoQdone.inflight.length ≤ 1 ∧
    enqIds demoQdone.trace = startIds demoQdone.trace ++ demoQdone.queue ∧
    runEvs demoQdone.trace =
      pairEvs (settleOuts demoQdone.trace) ++ demoQdone.inflight.map QEv.start :=
  queue_serial_fifo
    (Reachable.settle false
      (Reachable.settle true
        (Reachable.enq 2 (Reachable.enq 1 Reachable.init)) (by decide))
      (by decide))

/-- C3: if the writing stage throws, the final persisted record has status
`failed` with the (non-null) message of the thrown error, and neither the
meta stage nor the thumbnail stage is ever invoked. -/
theorem writing_failure_short_circuits {store : Store} {jobId : Nat} {job : JobRecord}
    (h : findJob store jobId = some job) {o : StageOracle} {brief : String}
    {imgs : List ArticleImage} {e : JSError}
    (hr : o.research = Except.ok brief) (hi : o.images = Except.ok imgs)
    (hw : o.write = Except.error e) :
    (findJob (runContentPipeline store jobId o).2.store jobId).map
        (fun r => (r.status, r.errorMessage)) =
      some (JobStatus.failed, some (errMsg e)) ∧
    PEvent.callStage Stage.meta ∉ (runContentPipeline store jobId o).2.trace ∧
    PEvent.callStage Stage.thumbnail ∉ (runContentPipeline store jobId o).2.trace := by
  obtain ⟨ores, oimg, ow, om, ot⟩ := o
  simp only at hr hi hw
  subst hr; subst hi; subst hw
  refine ⟨?_, ?_, ?_⟩
  · simp [runContentPipeline, h, PRun.upd, PRun.pub, PRun.call, PRun.haltFail,
      findJob_updateJob, applyUpdate, updField]
  · simp [runContentPipeline, h, PRun.upd, PRun.pub, PRun.call, PRun.haltFail]
  · simp [runContentPipeline, h, PRun.upd, PRun.pub, PRun.call, PRun.haltFail]

/-- C3 (witness): the writing-failure claim instantiated on a concrete store
and an oracle whose writing stage throws `Error("boom")`. -/
theorem writing_failure_short_circuits_witness :
    (findJob (runContentPipeline demoStore 1 demoOracleWFail).2.store 1).map
        (fun r => (r.status, r.errorMessage)) =
      some (JobStatus.failed, some "boom") ∧
    PEvent.callStage Stage.meta ∉ (runContentPipeline demoStore 1 demoOracleWFail).2.trace ∧
    PEvent.callStage Stage.thumbnail ∉ (runContentPipeline demoStore 1 demoOracleWFail).2.trace :=
  @writing_failure_short_circuits demoStore 1 demoJob (by decide) demoOracleWFail
    "brief" [] (JSError.errObj "boom") rfl rfl rfl

end AlphaDog

namespace AlphaDog

/-- C4 (counterexample): an orchestrator run re-entered on a `failed` record —
reachable by enqueueing the same id twice, the first run failing and the
second succeeding, since only the re-trigger route clears `errorMessage` —
never clears the stale `errorMessage`: the run ends with status `completed`
and `errorMessage` still `"boom"`, violating the iff-invariant even though
the entry record satisfied it. -/
theorem stale_error_after_rerun :
    recordInv demoFailedJob = true ∧
    (findJob (runContentPipeline [(1, demoFailedJob)] 1 demoOracleOk).2.store 1).map
        (fun r => (r.status, r.errorMessage, recordInv r)) =
      some (JobStatus.completed, some "boom", false) := by decide

/-- C4 (amended): provided the record's `errorMessage` is null when the
orchestrator run begins — which the re-trigger route's reset guarantees —
every store state produced by the run's successive updates satisfies the
invariant (`errorMessage` non-null iff `status = failed`; statuses drawn from
the fixed enum by construction), and the re-trigger reset itself always
yields an invariant-satisfying record.  An orchestrator run entered on a
record with non-null `errorMessage` carries the stale message through
non-failed statuses instead. -/
theorem record_invariant_preserved {store : Store} {jobId : Nat} {job : JobRecord}
    (h : findJob store jobId = some job) (hnil : job.errorMessage = none)
    (o : StageOracle) :
    recordOkAlong job (updatesOf (runContentPipeline store jobId o).2.trace) = true ∧
    ∀ r : JobRecord, recordInv (applyUpdate r retriggerReset) = true := by
  obtain ⟨ores, oimg, ow, om, ot⟩ := o
  refine ⟨?_, fun r => by simp [applyUpdate, retriggerReset, recordInv]⟩
  cases ores with
  | error e =>
    simp [runContentPipeline, h, PRun.upd, PRun.pub, PRun.call, PRun.haltFail,
      updatesOf, recordOkAlong, applyUpdate, recordInv, hnil]
  | ok brief =>
    cases oimg with
    | error e =>
      simp [runContentPipeline, h, PRun.upd, PRun.pub, PRun.call, PRun.haltFail,
        updatesOf, recordOkAlong, applyUpdate, recordInv, hnil]
    | ok imgs =>
      cases ow with
      | error e =>
        simp [runContentPipeline, h, PRun.upd, PRun.pub, PRun.call, PRun.haltFail,
          updatesOf, recordOkAlong, applyUpdate, recordInv, hnil]
      | ok article =>
        cases om with
        | error e =>
          simp [runContentPipeline, h, PRun.upd, PRun.pub, PRun.call, PRun.haltFail,
            updatesOf, recordOkAlong, applyUpdate, recordInv, hnil]
        | ok m =>
          cases ot with
          | error e =>
            simp [runContentPipeline, h, PRun.upd, PRun.pub, PRun.call, PRun.haltFail,
              updatesOf, recordOkAlong, applyUpdate, recordInv, hnil]
          | ok url =>
            simp [runContentPipeline, h, PRun.upd, PRun.pub, PRun.call, PRun.haltFail,
              updatesOf, recordOkAlong, applyUpdate, recordInv, hnil]

/-- C4 (witness): the amended invariant claim instantiated on a concrete
clean record with a writing-stage failure, and the reset applied to a
concrete failed record. -/
theorem record_invariant_preserved_witness :
    recordOkAlong demoJob
      (updatesOf (runContentPipeline demoStore 1 demoOracleWFail).2.trace) = true ∧
    recordInv (applyUpdate demoFailedJob retriggerReset) = true :=
  have h := @record_invariant_preserved demoStore 1 demoJob (by decide) rfl demoOracleWFail
  ⟨h.1, h.2 demoFailedJob⟩

/-- C5: from any reachable busy queue state, settling the in-flight runs one
after another — with any mix of resolved and rejected pipeline promises, the
rejections being swallowed by the drain loop's try/catch — empties the
buffer, returns the queue to idle, and starts a run for every id ever
enqueued: one run's failure never stops the drain loop, and no failure
escapes past the queue boundary (`enqueueJob` and `settleRun` are total
functions of the model). -/
theorem queue_drains_despite_failures {outs : List Bool} :
    ∀ {s : QState}, Reachable s → s.processing = true →
    outs.length = s.queue.length + 1 →
    (settleMany s outs).processing = false ∧ (settleMany s outs).queue = [] ∧
    startIds (settleMany s outs).trace = enqIds s.trace ∧
    enqIds (settleMany s outs).trace = enqIds s.trace := by
  induction outs with
  | nil => intro s _ _ hl; simp at hl
  | cons ok outs ih =>
    intro s hr hp hl
    obtain ⟨h1, h2, h3, h4⟩ := reach_qinv hr
    obtain ⟨j, hj⟩ := h2 hp
    have hne : s.inflight ≠ [] := by rw [hj]; simp
    have hr' : Reachable (settleRun s ok) := Reachable.settle ok hr hne
    have hsm : settleMany s (ok :: outs) = settleMany (settleRun s ok) outs := rfl
    cases hq : s.queue with
    | nil =>
      have houts : outs = [] := by rw [hq] at hl; simpa using hl
      subst houts
      have hs' : settleRun s ok =
          { s with processing := false, inflight := [],
                   trace := s.trace ++ [QEv.settle j ok] } := by
        simp [settleRun, hj, startNext, hq]
      rw [hsm, hs']
      refine ⟨rfl, by simpa using hq, ?_, ?_⟩
      · simp [settleMany, startIds_append, startIds]
        rw [hq] at h3; simpa using h3.symm
      · simp [settleMany, enqIds_append, enqIds]
    | cons k rest =>
      have hs' : settleRun s ok =
          { s with processing := true, queue := rest, inflight := [k],
                   trace := s.trace ++ [QEv.settle j ok, QEv.start k] } := by
        simp [settleRun, hj, startNext, hq]
      have hp' : (settleRun s ok).processing = true := by rw [hs']
      have hl' : outs.length = (settleRun s ok).queue.length + 1 := by
        rw [hs']; rw [hq] at hl; simpa using hl
      have hcont := ih hr' hp' hl'
      rw [hsm]
      refine ⟨hcont.1, hcont.2.1, ?_, ?_⟩
      · rw [hcont.2.2.1, hs']; simp [enqIds_append, enqIds]
      · rw [hcont.2.2.2, hs']; simp [enqIds_append, enqIds]

/-- C5 (witness): three jobs enqueued back to back; their runs settle as
rejection, resolution, rejection, and the queue still drains all three and
returns to idle. -/
theorem queue_drains_despite_failures_witness :
    (settleMany demoQbusy [false, true, false]).processing = false ∧
    (settleMany demoQbusy [false, true, false]).queue = [] ∧
    startIds (settleMany demoQbusy [false, true, false]).trace = enqIds demoQbusy.trace ∧
    enqIds (settleMany demoQbusy [false, true, false]).trace = enqIds demoQbusy.trace :=
  queue_drains_despite_failures
    (Reachable.enq 3 (Reachable.enq 2 (Reachable.enq 1 Reachable.init)))
    (by decide) (by decide)

end AlphaDog

namespace AlphaDog

/-- C6: in every orchestrator run (any combination of stage outcomes), each
broadcaster publish carries exactly the status most recently written to the
Job Store, so a subscriber never observes a stage event before the durable
record reflects that transition. -/
theorem writes_before_publishes {store : Store} {jobId : Nat} {job : JobRecord}
    (h : findJob store jobId = some job) (o : StageOracle) :
    pubsRespectWrites none (runContentPipeline store jobId o).2.trace = true := by
  obtain ⟨ores, oimg, ow, om, ot⟩ := o
  cases ores with
  | error e =>
    simp [runContentPipeline, h, PRun.upd, PRun.pub, PRun.call, PRun.haltFail,
      pubsRespectWrites]
  | ok brief =>
    cases oimg with
    | error e =>
      simp [runContentPipeline, h, PRun.upd, PRun.pub, PRun.call, PRun.haltFail,
        pubsRespectWrites]
    | ok imgs =>
      cases ow with
      | error e =>
        simp [runContentPipeline, h, PRun.upd, PRun.pub, PRun.call, PRun.haltFail,
          pubsRespectWrites]
      | ok article =>
        cases om with
        | error e =>
          simp [runContentPipeline, h, PRun.upd, PRun.pub, PRun.call, PRun.haltFail,
            pubsRespectWrites]
        | ok m =>
          cases ot with
          | error e =>
            simp [runContentPipeline, h, PRun.upd, PRun.pub, PRun.call, PRun.haltFail,
              pubsRespectWrites]
          | ok url =>
            simp [runContentPipeline, h, PRun.upd, PRun.pub, PRun.call, PRun.haltFail,
              pubsRespectWrites]

/-- C6 (witness): the write-before-publish discipline evaluated on a concrete
successful run. -/
theorem writes_before_publishes_witness :
    pubsRespectWrites none (runContentPipeline demoStore 1 demoOracleOk).2.trace = true :=
  @writes_before_publishes demoStore 1 demoJob (by decide) demoOracleOk

/-- C7: whenever some stage call throws and the orchestrator catches it, the
final record has status `failed` and `errorMessage` equal to the exception's
message (or the `"Unknown error"` fallback for a non-`Error` throw), both
persisted by the single closing update of the trace, and the trace ends with
the `failed` publish carrying that same message. -/
theorem stage_failure_recorded {store : Store} {jobId : Nat} {job : JobRecord}
    (h : findJob store jobId = some job) {o : StageOracle} {e : JSError}
    (he : firstError o = some e) :
    (findJob (runContentPipeline store jobId o).2.store jobId).map
        (fun r => (r.status, r.errorMessage)) =
      some (JobStatus.failed, some (errMsg e)) ∧
    ∃ pre, (runContentPipeline store jobId o).2.trace =
      pre ++ [PEvent.update jobId { status := some JobStatus.failed,
                                    errorMessage := some (some (errMsg e)) },
              PEvent.emit jobId JobStatus.failed (errMsg e)] := by
  obtain ⟨ores, oimg, ow, om, ot⟩ := o
  cases ores with
  | error e' =>
    simp only [firstError] at he
    obtain rfl : e' = e := by injection he
    refine ⟨?_, prefixResearch jobId, ?_⟩
    · simp [runContentPipeline, h, PRun.upd, PRun.pub, PRun.call, PRun.haltFail,
        findJob_updateJob, applyUpdate, updField]
    · simp [runContentPipeline, h, PRun.upd, PRun.pub, PRun.call, PRun.haltFail,
        prefixResearch]
  | ok brief =>
    cases oimg with
    | error e' =>
      simp only [firstError] at he
      obtain rfl : e' = e := by injection he
      refine ⟨?_, prefixImages jobId brief, ?_⟩
      · simp [runContentPipeline, h, PRun.upd, PRun.pub, PRun.call, PRun.haltFail,
          findJob_updateJob, applyUpdate, updField]
      · simp [runContentPipeline, h, PRun.upd, PRun.pub, PRun.call, PRun.haltFail,
          prefixImages, prefixResearch]
    | ok imgs =>
      cases ow with
      | error e' =>
        simp only [firstError] at he
        obtain rfl : e' = e := by injection he
        refine ⟨?_, prefixWriting jobId brief imgs, ?_⟩
        · simp [runContentPipeline, h, PRun.upd, PRun.pub, PRun.call, PRun.haltFail,
            findJob_updateJob, applyUpdate, updField]
        · simp [runContentPipeline, h, PRun.upd, PRun.pub, PRun.call, PRun.haltFail,
            prefixWriting, prefixImages, prefixResearch]
      | ok article =>
        cases om with
        | error e' =>
          simp only [firstError] at he
          obtain rfl : e' = e := by injection he
          refine ⟨?_, prefixMeta jobId brief imgs article, ?_⟩
          · simp [runContentPipeline, h, PRun.upd, PRun.pub, PRun.call, PRun.haltFail,
              findJob_updateJob, applyUpdate, updField]
          · simp [runContentPipeline, h, PRun.upd, PRun.pub, PRun.call, PRun.haltFail,
              prefixMeta, prefixWriting, prefixImages, prefixResearch]
        | ok m =>
          cases ot with
          | error e' =>
            simp only [firstError] at he
            obtain rfl : e' = e := by injection he
            refine ⟨?_, prefixThumbnail jobId brief imgs article m, ?_⟩
            · simp [runContentPipeline, h, PRun.upd, PRun.pub, PRun.call, PRun.haltFail,
                findJob_updateJob, applyUpdate, updField]
            · simp [runContentPipeline, h, PRun.upd, PRun.pub, PRun.call, PRun.haltFail,
                prefixThumbnail, prefixMeta, prefixWriting, prefixImages, prefixResearch]
          | ok url =>
            simp [firstError] at he

/-- C7 (witness): the failure-recording claim instantiated on a concrete run
whose writing stage throws `Error("boom")`. -/
theorem stage_failure_recorded_witness :
    (findJob (runContentPipeline demoStore 1 demoOracleWFail).2.store 1).map
        (fun r => (r.status, r.errorMessage)) =
      some (JobStatus.failed, some "boom") ∧
    ∃ pre, (runContentPipeline demoStore 1 demoOracleWFail).2.trace =
      pre ++ [PEvent.update 1 { status := some JobStatus.failed,
                                errorMessage := some (some "boom") },
              PEvent.emit 1 JobStatus.failed "boom"] :=
  @stage_failure_recorded demoStore 1 demoJob (by decide) demoOracleWFail
    (JSError.errObj "boom") (by decide)

end AlphaDog

namespace AlphaDog

/-- C8: when spec generation succeeds, `generateArticleImages` never throws,
whatever individual image generations do: it returns exactly the successfully
generated images, in spec order (each failing spec is skipped); and because
the image stage thus resolves, the orchestrator proceeds to invoke the
writing stage rather than failing the job. -/
theorem partial_image_failure (specs : List ImageSpec)
    (gen : ImageSpec → Except JSError GeneratedImage) :
    generateArticleImages (Except.ok specs) gen =
      Except.ok (specs.filterMap (fun spec =>
        match gen spec with
        | Except.ok g => some (mkArticleImage spec g)
        | Except.error _ => none)) ∧
    ∀ (store : Store) (jobId : Nat) (job : JobRecord) (o : StageOracle) (brief : String),
      findJob store jobId = some job →
      o.research = Except.ok brief →
      o.images = generateArticleImages (Except.ok specs) gen →
      PEvent.callStage Stage.writing ∈ (runContentPipeline store jobId o).2.trace := by
  constructor
  · simp only [generateArticleImages, Except.ok.injEq]
    induction specs with
    | nil => rfl
    | cons spec rest ih =>
      cases hg : gen spec <;> simp [imagesLoop, hg, ih]
  · intro store jobId job o brief h hr hi
    obtain ⟨ores, oimg, ow, om, ot⟩ := o
    simp only at hr hi
    subst hr
    rw [hi]
    cases ow with
    | error e =>
      simp [runContentPipeline, h, generateArticleImages, PRun.upd, PRun.pub,
        PRun.call, PRun.haltFail]
    | ok article =>
      cases om with
      | error e =>
        simp [runContentPipeline, h, generateArticleImages, PRun.upd, PRun.pub,
          PRun.call, PRun.haltFail]
      | ok m =>
        cases ot with
        | error e =>
          simp [runContentPipeline, h, generateArticleImages, PRun.upd, PRun.pub,
            PRun.call, PRun.haltFail]
        | ok url =>
          simp [runContentPipeline, h, generateArticleImages, PRun.upd, PRun.pub,
            PRun.call, PRun.haltFail]

/-- C8 (witness): with four specs of which the second and fourth throw, the
stage returns exactly the two surviving images in spec order, and the
pipeline built on that result reaches the writing stage. -/
theorem partial_image_failure_witness :
    generateArticleImages (Except.ok demoSpecs) demoGen =
      Except.ok [⟨"after introduction", "url-prompt1", "alt1", none⟩,
                 ⟨"in section 3", "url-prompt3", "alt3", none⟩] ∧
    PEvent.callStage Stage.writing ∈ (runContentPipeline demoStore 1 demoOracle8).2.trace :=
  ⟨(partial_image_failure demoSpecs demoGen).1.trans (congrArg Except.ok (by decide)),
   (partial_image_failure demoSpecs demoGen).2 demoStore 1 demoJob demoOracle8
     "brief" (by decide) rfl rfl⟩

/-- C9: a publish delivers the freshly stamped event to exactly the callbacks
currently subscribed to that job id (a callback receives something iff it is
subscribed under that id, so a subscriber to job 5 never receives an event
published for job 6), every delivered event is the one constructed for this
publish, and publishing with zero subscribers for the id yields no
deliveries — a no-op, not an error. -/
theorem broadcaster_isolation (b : Broadcaster) (jobId cb : Nat)
    (st : JobStatus) (msg : String) (now : Nat) :
    ((∃ ev, (cb, ev) ∈ b.emitEvent jobId st msg now) ↔ (jobId, cb) ∈ b.subs) ∧
    (∀ d ∈ b.emitEvent jobId st msg now, d.2 = JobEvent.mk jobId st msg now) ∧
    ((∀ p ∈ b.subs, p.1 ≠ jobId) → b.emitEvent jobId st msg now = []) := by
  refine ⟨?_, ?_, ?_⟩
  · constructor
    · rintro ⟨ev, hev⟩
      simp only [Broadcaster.emitEvent, List.mem_map, List.mem_filter] at hev
      obtain ⟨p, ⟨hmem, hpj⟩, heq⟩ := hev
      have h2 : p.2 = cb := by
        have := congrArg Prod.fst heq
        simpa using this
      have h1 : p.1 = jobId := by simpa using hpj
      have hpair : p = (jobId, cb) := by
        obtain ⟨a, c⟩ := p
        simp only at h1 h2
        rw [h1, h2]
      rwa [hpair] at hmem
    · intro hmem
      refine ⟨JobEvent.mk jobId st msg now, ?_⟩
      simp only [Broadcaster.emitEvent, List.mem_map, List.mem_filter]
      exact ⟨(jobId, cb), ⟨hmem, by simp⟩, rfl⟩
  · intro d hd
    simp only [Broadcaster.emitEvent, List.mem_map, List.mem_filter] at hd
    obtain ⟨p, _, heq⟩ := hd
    have := congrArg Prod.snd heq
    simpa using this.symm
  · intro hnone
    simp only [Broadcaster.emitEvent, List.map_eq_nil_iff, List.filter_eq_nil_iff]
    intro p hp
    simpa using hnone p hp

/-- C9 (witness): on a broadcaster with a subscriber to job 5 and one to job
6, the subscriber to job 6 receives nothing from a publish for job 5, and a
publish for job 7 (no subscribers) delivers nothing. -/
theorem broadcaster_isolation_witness :
    ((∃ ev, (11, ev) ∈ demoBroadcaster.emitEvent 5 JobStatus.researching "m" 0) ↔
      (5, 11) ∈ demoBroadcaster.subs) ∧
    ((∀ p ∈ demoBroadcaster.subs, p.1 ≠ 7) →
      demoBroadcaster.emitEvent 7 JobStatus.researching "m" 0 = []) :=
  have h := broadcaster_isolation demoBroadcaster 5 11 JobStatus.researching "m" 0
  have h7 := broadcaster_isolation demoBroadcaster 7 11 JobStatus.researching "m" 0
  ⟨h.1, h7.2.2⟩

/-- C10: running the orchestrator on a job id absent from the Job Store
rejects with the lookup's `NotFoundError` before the try block: the store is
returned unchanged and the effect trace is empty (no update, no publish, not
even a `failed` event); and the drain loop absorbs the rejection — the queue
state after a rejected run settles is identical, except for the recorded
outcome flag, to the state after a resolved one. -/
theorem missing_job_no_effects {store : Store} {jobId : Nat} (o : StageOracle)
    (h : findJob store jobId = none) :
    runContentPipeline store jobId o = (Except.error prismaNotFound, PRun.mk store []) ∧
    ∀ (s : QState) (ok : Bool),
      (settleRun s ok).queue = (settleRun s true).queue ∧
      (settleRun s ok).processing = (settleRun s true).processing ∧
      (settleRun s ok).inflight = (settleRun s true).inflight ∧
      startIds (settleRun s ok).trace = startIds (settleRun s true).trace := by
  constructor
  · simp [runContentPipeline, h]
  · intro s ok
    obtain ⟨q, p, inf, tr⟩ := s
    cases inf with
    | nil => exact ⟨rfl, rfl, rfl, rfl⟩
    | cons j rest =>
      cases q <;> simp [settleRun, startNext, startIds_append, startIds]

/-- C10 (witness): the absent-id claim instantiated at id 99 over the one-row
demo store, with the queue-absorption part evaluated at a concrete busy
state. -/
theorem missing_job_no_effects_witness :
    runContentPipeline demoStore 99 demoOracleOk =
      (Except.error prismaNotFound, PRun.mk demoStore []) ∧
    (settleRun demoQbusy false).queue = (settleRun demoQbusy true).queue ∧
    (settleRun demoQbusy false).processing = (settleRun demoQbusy true).processing ∧
    (settleRun demoQbusy false).inflight = (settleRun demoQbusy true).inflight ∧
    startIds (settleRun demoQbusy false).trace = startIds (settleRun demoQbusy true).trace :=
  have h := @missing_job_no_effects demoStore 99 demoOracleOk (by decide)
  ⟨h.1, h.2 demoQbusy false⟩

end AlphaDog
